import Mathlib

/-!
Verification of the pharma-research-extractor core pipeline.

Shallow embedding of the Python modules `config.py`, `text_utils.py`,
`pubmed_client.py` and `validation.py`.  Python strings are modelled as
Lean `String`s (ASCII-faithful: `str.lower`, `str.strip` and `str.isdigit`
are modelled on their ASCII behaviour, which covers every string appearing
in the claims and keywords).  XML element trees are modelled by an explicit
tree type with `ElementTree`-style `find`/`findall`/`findtext` semantics.
Python exceptions are modelled with `Except`.
-/

namespace PharmaExtractor

/-! ### Python string primitives -/

/-- Python `str.lower` (ASCII model: maps A-Z to a-z). -/
def pyLower (s : String) : String := String.mk (s.toList.map Char.toLower)

/-- The whitespace characters recognised by Python `str.split()` /
`str.strip()` on ASCII input. -/
def pyIsSpace (c : Char) : Bool :=
  c = ' ' || c = '\t' || c = '\n' || c = '\x0d' || c = '\x0b' || c = '\x0c'

/-- Helper for `str.split()`: walk the characters, `cur` holds the
current (reversed) in-progress token. -/
def splitWsAux : List Char → List Char → List (List Char)
  | [], cur => if cur.isEmpty then [] else [cur.reverse]
  | c :: rest, cur =>
      if pyIsSpace c then
        if cur.isEmpty then splitWsAux rest []
        else cur.reverse :: splitWsAux rest []
      else splitWsAux rest (c :: cur)

/-- Python `str.split()` with no argument: split on runs of whitespace,
discarding empty tokens. -/
def pySplitWs (s : String) : List String :=
  (splitWsAux s.toList []).map String.mk

/-- Strip characters satisfying `p` from both ends of a character list
(the common core of Python `str.strip()` and `str.strip(chars)`). -/
def pyStripP (p : Char → Bool) (cs : List Char) : List Char :=
  ((cs.dropWhile p).reverse.dropWhile p).reverse

/-- Python `s.strip(chars)`: remove any character of `set` from both ends. -/
def pyStripChars (set : List Char) (s : String) : String :=
  String.mk (pyStripP (fun c => set.contains c) s.toList)

/-- Python `s.strip()` with no argument: remove whitespace from both ends. -/
def pyStripWs (s : String) : String :=
  String.mk (pyStripP pyIsSpace s.toList)

/-- Python `sep.join(parts)`. -/
def pyJoin (sep : String) : List String → String
  | [] => ""
  | [part] => part
  | part :: rest => part ++ sep ++ pyJoin sep rest

/-- Python `str.isdigit` (ASCII model: non-empty and all characters 0-9). -/
def pyIsDigit (s : String) : Bool :=
  !s.toList.isEmpty && s.toList.all Char.isDigit

/-- Auxiliary: does `needle` occur at the start of `hay`? -/
def startsWithList : List Char → List Char → Bool
  | [], _ => true
  | _ :: _, [] => false
  | a :: as, b :: bs => a = b && startsWithList as bs

/-- Auxiliary: does `needle` occur contiguously anywhere in `hay`? -/
def containsList (needle hay : List Char) : Bool :=
  startsWithList needle hay ||
    match hay with
    | [] => false
    | _ :: rest => containsList needle rest

/-- Python `needle in hay` on strings: contiguous substring test. -/
def pyContains (hay needle : String) : Bool :=
  containsList needle.toList hay.toList

/-! ### config.py -/

/-- ACADEMIC_KEYWORDS from `config.py`. -/
def ACADEMIC_KEYWORDS : List String :=
  ["school", "university", "college", "institute", "department", "faculty",
   "academy", "center", "centre", "hospital", "medical", "clinic", "grad",
   "postdoc", "fellow", "professor", "lecturer", "phd", "student", "library",
   "conservatory", "polytechnic", "laboratory", "lab"]

/-! ### text_utils.py -/

/-- Model of `is_academic_affiliation` from `text_utils.py`: lower-case the input and
test whether any academic keyword occurs as a substring. -/
def is_academic_affiliation (affil : String) : Bool :=
  ACADEMIC_KEYWORDS.any (fun keyword => pyContains (pyLower affil) keyword)

/-- The punctuation set stripped around an extracted email token. -/
def emailStripSet : List Char := [';', '.', ',', '(', ')', '<', '>']

/-- Model of `extract_email` from `text_utils.py`: empty input gives `""`; otherwise
split on whitespace and return the first token containing both `@` and `.`,
stripped of surrounding `;.,()<>`. -/
def extract_email (affil_text : String) : String :=
  if affil_text = "" then ""
  else
    match (pySplitWs affil_text).find?
        (fun word => pyContains word "@" && pyContains word ".") with
    | some word => pyStripChars emailStripSet word
    | none => ""

/-- Model of `clean_title` from `text_utils.py`.  The argument is the result of
`Element.findtext(".//ArticleTitle")`, i.e. `none` when the node is absent;
Python falsiness sends both `None` and `""` to the sentinel. -/
def clean_title (title : Option String) : String :=
  match title with
  | none => "N/A"
  | some t => if t = "" then "N/A" else pyStripWs t

/-- Model of `format_publication_date` from `text_utils.py`: join the non-empty
components with `-`, then strip `-` from both ends. -/
def format_publication_date (year month day : String) : String :=
  pyStripChars ['-'] (pyJoin "-" (([year, month, day]).filter (fun part => part != "")))

/-! ### XML element model (xml.etree.ElementTree)

An element has a tag, optional text (Python `Element.text`, `None` when the
node is empty) and a list of child elements.  `find`/`findall` with a path
`.//Tag` visit the proper descendants in document (pre-) order. -/

inductive Elem : Type where
  | mk : String → Option String → List Elem → Elem

/-- Tag of an element. -/
def Elem.tag : Elem → String
  | .mk t _ _ => t

/-- Text of an element (`Element.text`; `none` for an empty node). -/
def Elem.text : Elem → Option String
  | .mk _ x _ => x

/-- Children of an element. -/
def Elem.children : Elem → List Elem
  | .mk _ _ cs => cs

mutual
/-- Proper descendants of an element in document (pre-) order. -/
def Elem.descendants : Elem → List Elem
  | .mk _ _ cs => descendantsOfList cs

/-- Concatenation of each element with its descendants, in order. -/
def descendantsOfList : List Elem → List Elem
  | [] => []
  | c :: rest => c :: (Elem.descendants c ++ descendantsOfList rest)
end

/-- Model of `element.findall(".//tag")`: all proper descendants with the given tag,
in document order. -/
def findallDesc (e : Elem) (tag : String) : List Elem :=
  e.descendants.filter (fun d => d.tag = tag)

/-- Model of `element.find(".//tag")`: first proper descendant with the given tag. -/
def findDesc (e : Elem) (tag : String) : Option Elem :=
  e.descendants.find? (fun d => d.tag = tag)

/-- Model of `element.findtext(".//tag")`: `none` when no node matches; otherwise the
the text of the node, with `none` text read as `""` (ElementTree convention). -/
def findtextDesc (e : Elem) (tag : String) : Option String :=
  (findDesc e tag).map (fun d => d.text.getD "")

/-- Model of `element.find(tag)` for a direct child path. -/
def findChild (e : Elem) (tag : String) : Option Elem :=
  e.children.find? (fun d => d.tag = tag)

/-- Model of `element.findtext(tag)` for a direct child path. -/
def findtextChild (e : Elem) (tag : String) : Option String :=
  (findChild e tag).map (fun d => d.text.getD "")

/-- Model of `author.find(".//AffiliationInfo/Affiliation")`: the first `Affiliation`
child of any descendant `AffiliationInfo` node, in document order. -/
def findAffiliation (author : Elem) : Option Elem :=
  ((findallDesc author "AffiliationInfo").flatMap
      (fun ai => ai.children.filter (fun c => c.tag = "Affiliation"))).head?

/-- Python `x or default` where `x` is an optional string: `None` and `""`
both fall back to the default. -/
def pyOrStr (x : Option String) (default : String) : String :=
  match x with
  | none => default
  | some t => if t = "" then default else t

/-! ### Exceptions

Constructors for the Python exceptions that the embedded code can raise:
`AttributeError` (from `None.strip()`), `xml.etree.ElementTree.ParseError`,
and the exception taxonomy of the package from `exceptions.py`. -/

inductive PyExc : Type where
  | attributeError : PyExc
  | etParseError : String → PyExc
  | validationError : String → PyExc
  | networkError : String → PyExc
  | pubMedAPIError : String → PyExc
  | dataProcessingError : String → PyExc
  | outputError : String → PyExc
deriving DecidableEq, Repr

/-! ### pubmed_client.py -/

/-- Result of `PubMedClient._extract_author_data`. -/
structure AuthorData : Type where
  full_name : String
  affiliation : String
  email : String
deriving DecidableEq, Repr

/-- Model of `_extract_author_data`: build the name from `ForeName`/`LastName`
(absent fields become `""`), take the text of the first
`AffiliationInfo/Affiliation` node, and mine an email from it.
When the affiliation node is present but has no text, the Python line
`affil_elem.text.strip()` raises `AttributeError` (`None` has no `strip`). -/
def extract_author_data (author : Elem) : Except PyExc AuthorData :=
  let fore := (findtextChild author "ForeName").getD ""
  let last := (findtextChild author "LastName").getD ""
  let full_name := pyStripWs (fore ++ " " ++ last)
  match findAffiliation author with
  | none =>
      Except.ok { full_name := full_name, affiliation := "", email := "" }
  | some affil_elem =>
      match affil_elem.text with
      | none => Except.error PyExc.attributeError
      | some t =>
          let affiliation := pyStripWs t
          let email := if affiliation != "" then extract_email affiliation else ""
          Except.ok { full_name := full_name, affiliation := affiliation, email := email }

/-- Result of `PubMedClient._extract_article_data`. -/
structure ArticleData : Type where
  pmid : String
  title : String
  pub_date : String
  non_academic_authors : List String
  affiliations : List String
  corresponding_email : String
deriving DecidableEq, Repr

/-- The test of the author loop of `_extract_article_data`:
`if author_data["affiliation"] and not is_academic_affiliation(...)`. -/
def qualifiesB (ad : AuthorData) : Bool :=
  ad.affiliation != "" && !is_academic_affiliation ad.affiliation

/-- Body of the author loop of `_extract_article_data`: first the
corresponding-email update, then the non-academic append, on the state
`(non_academic_authors, affiliations, corresponding_email)`. -/
def authorStep (st : List String × List String × String) (ad : AuthorData) :
    List String × List String × String :=
  let corr := if ad.email != "" && st.2.2 == "" then ad.email else st.2.2
  if qualifiesB ad then
    (st.1 ++ [ad.full_name], st.2.1 ++ [ad.affiliation], corr)
  else
    (st.1, st.2.1, corr)

/-- Effectful map in the `Except` monad, aborting at the first error, as a
Python `for` loop over fallible per-item work does. -/
def mapExcept (f : α → Except PyExc β) : List α → Except PyExc (List β)
  | [] => Except.ok []
  | x :: xs =>
      match f x with
      | .error e => .error e
      | .ok y =>
          match mapExcept f xs with
          | .error e => .error e
          | .ok ys => .ok (y :: ys)

/-- Model of `_extract_article_data`.  The Python author loop interleaves extraction
and accumulation; in the error monad this equals extracting every author
first and then folding, since the first raised exception aborts the article
either way. -/
def extract_article_data (article : Elem) : Except PyExc ArticleData :=
  let pmid := pyOrStr (findtextDesc article "PMID") "N/A"
  let title := clean_title (findtextDesc article "ArticleTitle")
  let pub_date_elem := findDesc article "PubDate"
  let year := match pub_date_elem with
    | some p => (findtextChild p "Year").getD ""
    | none => ""
  let month := match pub_date_elem with
    | some p => (findtextChild p "Month").getD ""
    | none => ""
  let day := match pub_date_elem with
    | some p => (findtextChild p "Day").getD ""
    | none => ""
  let pub_date := format_publication_date year month day
  match mapExcept extract_author_data (findallDesc article "Author") with
  | .error e => .error e
  | .ok ads =>
      let st := ads.foldl authorStep ([], [], "")
      Except.ok { pmid := pmid, title := title, pub_date := pub_date,
                  non_academic_authors := st.1, affiliations := st.2.1,
                  corresponding_email := st.2.2 }

/-- One output record of `_parse_xml_response` (dictionary with the CSV
field names `PubmedID`, `Title`, `Publication Date`, `Non-academicAuthor(s)`,
`CompanyAffiliation(s)`, `Corresponding Author Email`). -/
structure Row : Type where
  pubmedID : String
  titleField : String
  publicationDate : String
  nonAcademicAuthors : String
  companyAffiliations : String
  correspondingAuthorEmail : String
deriving DecidableEq, Repr

/-- Assemble the output dictionary for one article (`"; ".join` on the
parallel name/affiliation sequences). -/
def toRow (d : ArticleData) : Row :=
  { pubmedID := d.pmid, titleField := d.title, publicationDate := d.pub_date,
    nonAcademicAuthors := pyJoin "; " d.non_academic_authors,
    companyAffiliations := pyJoin "; " d.affiliations,
    correspondingAuthorEmail := d.corresponding_email }

/-- Model of `_parse_xml_response` applied to an already-parsed root element:
extract every `PubmedArticle` and keep only those with at least one
non-academic author. -/
def parse_xml_response (root : Elem) : Except PyExc (List Row) :=
  match mapExcept extract_article_data (findallDesc root "PubmedArticle") with
  | .error e => .error e
  | .ok datas =>
      .ok ((datas.filter (fun d => !d.non_academic_authors.isEmpty)).map toRow)

/-- Raw text fetched from the API, as seen by `ET.fromstring`: either
structurally malformed (parsing raises `ET.ParseError` with some message)
or well-formed with a root element. -/
inductive XMLDoc : Type where
  | malformed : String → XMLDoc
  | wellFormed : Elem → XMLDoc

/-- Model of `ET.fromstring` on the fetched text. -/
def ET_fromstring : XMLDoc → Except PyExc Elem
  | .malformed msg => Except.error (PyExc.etParseError msg)
  | .wellFormed root => Except.ok root

/-- Model of `_parse_xml_response` on raw fetched text (its first line is
`ET.fromstring(xml_text)`). -/
def parse_xml_response_text (doc : XMLDoc) : Except PyExc (List Row) :=
  match ET_fromstring doc with
  | .error e => .error e
  | .ok root => parse_xml_response root

/-- The parsing part of `fetch_details` (the network exchange already done):
run `_parse_xml_response` and convert `ET.ParseError` into
`PubMedAPIError("Failed to parse XML response: ...")`; any other exception
propagates unchanged.  There is no retry loop in this method. -/
def fetch_details (doc : XMLDoc) : Except PyExc (List Row) :=
  match parse_xml_response_text doc with
  | .error (.etParseError msg) =>
      .error (.pubMedAPIError ("Failed to parse XML response: " ++ msg))
  | other => other

/-- Exit-code mapping of the `except` chain in `cli.main`: exceptions not in
the package taxonomy (such as `AttributeError`) fall to the final generic
handler, exit code 1. -/
def cliExitCode (outcome : Except PyExc (List Row)) : Nat :=
  match outcome with
  | .ok _ => 0
  | .error (.validationError _) => 2
  | .error (.networkError _) => 3
  | .error (.pubMedAPIError _) => 4
  | .error (.dataProcessingError _) => 5
  | .error (.outputError _) => 6
  | .error _ => 1

/-! ### validation.py -/

/-- Input dictionary of `InputValidator.validate_article_data`: the six
field keys, each possibly absent (`article.get(key, default)` supplies the
default).  Values are modelled as strings, so the Python `str(...)`
stringification is the identity here. -/
structure ArticleDict : Type where
  pubmedID : Option String
  titleField : Option String
  publicationDate : Option String
  nonAcademicAuthors : Option String
  companyAffiliations : Option String
  correspondingEmail : Option String
deriving DecidableEq, Repr

/-- Character class `[a-zA-Z0-9._%+-]` of the local part of the validation
email regex. -/
def isEmailLocalChar (c : Char) : Bool :=
  c.isAlpha || c.isDigit || c = '.' || c = '_' || c = '%' || c = '+' || c = '-'

/-- Character class `[a-zA-Z0-9.-]` of the domain part of the validation
email regex. -/
def isEmailDomainChar (c : Char) : Bool :=
  c.isAlpha || c.isDigit || c = '.' || c = '-'

/-- Split a character list at the first occurrence of `c` (the separator
itself removed); `none` when `c` does not occur. -/
def splitAtFirst (c : Char) : List Char → Option (List Char × List Char)
  | [] => none
  | x :: xs =>
      if x = c then some ([], xs)
      else (splitAtFirst c xs).map (fun p => (x :: p.1, p.2))

/-- Split a character list at the last occurrence of `c`. -/
def splitAtLast (c : Char) (cs : List Char) : Option (List Char × List Char) :=
  (splitAtFirst c cs.reverse).map (fun p => (p.2.reverse, p.1.reverse))

/-- Decision procedure for `re.match` against the anchored validation regex
`^[a-zA-Z0-9._%+-]+@[a-zA-Z0-9.-]+\.[a-zA-Z]{2,}$`.  A string is in the
language of the regex iff it decomposes as `local ++ "@" ++ host ++ "." ++ tld`
with non-empty `local` over the local class, non-empty `host` over the
domain class and `tld` at least two letters; since neither class contains
`@` and the letter class contains no `.`, the decomposition point is forced
to be the first `@` and the last `.` after it, which is what this function
tests.  (The checked string is already stripped of surrounding whitespace,
so the `$`-before-trailing-newline subtlety of Python cannot arise.) -/
def emailRegexMatch (s : String) : Bool :=
  match splitAtFirst '@' s.toList with
  | none => false
  | some (localPart, domain) =>
      !localPart.isEmpty && localPart.all isEmailLocalChar &&
        match splitAtLast '.' domain with
        | none => false
        | some (host, tld) =>
            !host.isEmpty && host.all isEmailDomainChar &&
              decide (tld.length ≥ 2) && tld.all Char.isAlpha

/-- Model of `InputValidator.validate_article_data`: coerce the six fields to
stripped strings with their defaults, raise `ValidationError` when the
PubMed ID is neither `"N/A"` nor all digits, silently blank a non-empty,
non-`"N/A"` email that fails the regex, and return the validated record. -/
def validate_article_data (article : ArticleDict) : Except PyExc Row :=
  let pubmedID := pyStripWs (article.pubmedID.getD "N/A")
  let titleV := pyStripWs (article.titleField.getD "N/A")
  let pubDate := pyStripWs (article.publicationDate.getD "")
  let nonAcad := pyStripWs (article.nonAcademicAuthors.getD "")
  let compAff := pyStripWs (article.companyAffiliations.getD "")
  let email0 := pyStripWs (article.correspondingEmail.getD "")
  if pubmedID != "N/A" && !pyIsDigit pubmedID then
    Except.error (PyExc.validationError ("Invalid PubMed ID format: " ++ pubmedID))
  else
    let email := if email0 != "" && email0 != "N/A" && !emailRegexMatch email0
                 then "" else email0
    Except.ok { pubmedID := pubmedID, titleField := titleV,
                publicationDate := pubDate, nonAcademicAuthors := nonAcad,
                companyAffiliations := compAff,
                correspondingAuthorEmail := email }

/-! ### Specification-side definitions

Each of the following is written from the words of a spec claim (not from
the source), to be compared with the corresponding source definition. -/

/-- Algorithm of claim C5, word for word: split the input on whitespace and
return the first token containing both `@` and `.`, with the characters of
`;.,()<>` stripped from both ends; empty when no token qualifies (an empty
input has no tokens). -/
def specExtractEmail (s : String) : String :=
  match (pySplitWs s).find? (fun word => pyContains word "@" && pyContains word ".") with
  | some word => pyStripChars emailStripSet word
  | none => ""

/-- Format statement of claim C8: the result is empty exactly when no
component is present, and otherwise is the year, `year-month`, or
`year-month-day`. -/
def specDateFormat (year month day result : String) : Prop :=
  (year = "" ∧ month = "" ∧ day = "" ∧ result = "") ∨
  (year ≠ "" ∧ result = year) ∨
  (year ≠ "" ∧ month ≠ "" ∧ result = year ++ "-" ++ month) ∨
  (year ≠ "" ∧ month ≠ "" ∧ day ≠ "" ∧ result = year ++ "-" ++ month ++ "-" ++ day)

/-- Reading of the PubMed ID extraction in claim C9: the text of the first
matching `PMID` node (ElementTree reads absent text content as `""`), with
the sentinel only when the node is absent. -/
def specPmid (article : Elem) : String :=
  match findDesc article "PMID" with
  | none => "N/A"
  | some el => el.text.getD ""

/-- Amended C9 reading of the PubMed ID extraction: the sentinel also
applies when the `PMID` node is present but its text is empty. -/
def specPmidAmended (article : Elem) : String :=
  match findDesc article "PMID" with
  | none => "N/A"
  | some el => if el.text.getD "" = "" then "N/A" else el.text.getD ""

/-- Title extraction of claim C9: the text of the first matching title node,
trimmed, with the sentinel when the node is absent or its text empty. -/
def specTitle (article : Elem) : String :=
  match findDesc article "ArticleTitle" with
  | none => "N/A"
  | some el => if el.text.getD "" = "" then "N/A" else pyStripWs (el.text.getD "")

/-- Corresponding email as described by claim C3: the email extracted from the first
author record (in document order) with a non-empty affiliation whose
affiliation text yields an email; empty when there is none. -/
def specFirstEmbeddedEmail (ads : List AuthorData) : String :=
  match ads.find? (fun ad => ad.affiliation != "" && extract_email ad.affiliation != "") with
  | some ad => extract_email ad.affiliation
  | none => ""

/-- Email of the first author record whose mined email is non-empty
(characterisation of the `corresponding_email` fold in the source). -/
def emailOfFirst (ads : List AuthorData) : String :=
  match ads.find? (fun ad => ad.email != "") with
  | some ad => ad.email
  | none => ""

/-! ### Concrete inputs used in witnesses and counterexamples -/

/-- Author with an academic affiliation carrying an embedded email. -/
def authUni : Elem :=
  .mk "Author" none
    [.mk "ForeName" (some "Alice") [], .mk "LastName" (some "Smith") [],
     .mk "AffiliationInfo" none
       [.mk "Affiliation" (some "Harvard University, Boston. alice.smith@harvard.edu") []]]

/-- Author with a pharmaceutical-company affiliation and an embedded email. -/
def authPharma : Elem :=
  .mk "Author" none
    [.mk "ForeName" (some "Bob") [], .mk "LastName" (some "Jones") [],
     .mk "AffiliationInfo" none
       [.mk "Affiliation" (some "Pfizer Inc., New York. bob.jones@pfizer.com") []]]

/-- Article with one academic and one industry author. -/
def artMixed : Elem :=
  .mk "PubmedArticle" none
    [.mk "MedlineCitation" none
      [.mk "PMID" (some "12345") [],
       .mk "Article" none
         [.mk "ArticleTitle" (some " A trial. ") [],
          .mk "Journal" none
            [.mk "JournalIssue" none
              [.mk "PubDate" none
                [.mk "Year" (some "2021") [], .mk "Month" (some "03") []]]],
          .mk "AuthorList" none [authUni, authPharma]]]]

/-- Article whose only author is academic. -/
def artAcad : Elem :=
  .mk "PubmedArticle" none
    [.mk "MedlineCitation" none
      [.mk "PMID" (some "99") [],
       .mk "Article" none
         [.mk "ArticleTitle" none [], .mk "AuthorList" none [authUni]]]]

/-- Response document holding the two articles above. -/
def rootMixed : Elem := .mk "PubmedArticleSet" none [artAcad, artMixed]

/-- Extraction result of `artMixed` (checked by `rfl` in the witnesses). -/
def dMixed : ArticleData :=
  { pmid := "12345", title := "A trial.", pub_date := "2021-03",
    non_academic_authors := ["Bob Jones"],
    affiliations := ["Pfizer Inc., New York. bob.jones@pfizer.com"],
    corresponding_email := "alice.smith@harvard.edu" }

/-- Author-extraction results of the two authors of `artMixed`. -/
def adsMixed : List AuthorData :=
  [{ full_name := "Alice Smith",
     affiliation := "Harvard University, Boston. alice.smith@harvard.edu",
     email := "alice.smith@harvard.edu" },
   { full_name := "Bob Jones",
     affiliation := "Pfizer Inc., New York. bob.jones@pfizer.com",
     email := "bob.jones@pfizer.com" }]

/-- The single output row the batch parser produces from `rootMixed`. -/
def rowMixed : Row :=
  { pubmedID := "12345", titleField := "A trial.", publicationDate := "2021-03",
    nonAcademicAuthors := "Bob Jones",
    companyAffiliations := "Pfizer Inc., New York. bob.jones@pfizer.com",
    correspondingAuthorEmail := "alice.smith@harvard.edu" }

/-- Author whose `Affiliation` node is present but empty (`text` is `None`). -/
def emptyAffiliationAuthor : Elem :=
  .mk "Author" none
    [.mk "LastName" (some "Doe") [],
     .mk "AffiliationInfo" none [.mk "Affiliation" none []]]

/-- Article containing `emptyAffiliationAuthor`. -/
def articleWithEmptyAffiliation : Elem :=
  .mk "PubmedArticle" none
    [.mk "PMID" (some "7") [],
     .mk "AuthorList" none [emptyAffiliationAuthor, authPharma]]

/-- Response document containing `articleWithEmptyAffiliation`. -/
def rootWithEmptyAffiliation : Elem :=
  .mk "PubmedArticleSet" none [articleWithEmptyAffiliation]

/-- Article whose `PMID` node is present but has empty text content. -/
def emptyPmidArticle : Elem :=
  .mk "PubmedArticle" none [.mk "PMID" none []]

/-- Well-formed response document with no `PubmedArticle` node. -/
def emptyRootElem : Elem := .mk "PubmedArticleSet" none []

/-- Article dictionary with a valid PubMed ID and the sentinel `"N/A"` in
the email field. -/
def dictNAEmail : ArticleDict :=
  { pubmedID := some "123", titleField := some "T", publicationDate := none,
    nonAcademicAuthors := none, companyAffiliations := none,
    correspondingEmail := some "N/A" }

/-- Article dictionary with a valid PubMed ID and a regex-failing email. -/
def dictBadEmail : ArticleDict :=
  { pubmedID := some "42", titleField := some "T", publicationDate := some "2020",
    nonAcademicAuthors := some "Bob Jones", companyAffiliations := some "Pfizer Inc.",
    correspondingEmail := some "not-an-email" }

/-- The record `validate_article_data` returns on `dictBadEmail`. -/
def rowBadEmail : Row :=
  { pubmedID := "42", titleField := "T", publicationDate := "2020",
    nonAcademicAuthors := "Bob Jones", companyAffiliations := "Pfizer Inc.",
    correspondingAuthorEmail := "" }

/-- The record `validate_article_data` returns on `dictNAEmail`. -/
def rowNAEmail : Row :=
  { pubmedID := "123", titleField := "T", publicationDate := "",
    nonAcademicAuthors := "", companyAffiliations := "",
    correspondingAuthorEmail := "N/A" }

/-! ### Helper lemmas -/

lemma startsWithList_iff (n : List Char) : ∀ h : List Char,
    startsWithList n h = true ↔ ∃ t, n ++ t = h := by
  induction n with
  | nil =>
      intro h
      simp [startsWithList]
  | cons a as ih =>
      intro h
      cases h with
      | nil =>
          simp [startsWithList]
      | cons b bs =>
          simp only [startsWithList, Bool.and_eq_true, decide_eq_true_eq, ih,
            List.cons_append, List.cons.injEq]
          constructor
          · rintro ⟨rfl, t, rfl⟩
            exact ⟨t, rfl, rfl⟩
          · rintro ⟨t, rfl, rfl⟩
            exact ⟨rfl, t, rfl⟩

lemma containsList_iff (n : List Char) : ∀ h : List Char,
    containsList n h = true ↔ ∃ s t, s ++ n ++ t = h := by
  intro h
  induction h with
  | nil =>
      simp only [containsList, Bool.or_eq_true, startsWithList_iff]
      constructor
      · rintro (⟨t, ht⟩ | hfalse)
        · exact ⟨[], t, ht⟩
        · cases hfalse
      · rintro ⟨s, t, hst⟩
        rcases List.append_eq_nil.mp hst with ⟨hsn, ht⟩
        rcases List.append_eq_nil.mp hsn with ⟨hs, hn⟩
        exact Or.inl ⟨t, by simp [hn, ht]⟩
  | cons b bs ih =>
      simp only [containsList, Bool.or_eq_true, startsWithList_iff, ih]
      constructor
      · rintro (⟨t, ht⟩ | ⟨s, t, hst⟩)
        · exact ⟨[], t, by simpa using ht⟩
        · exact ⟨b :: s, t, by simp [hst]⟩
      · rintro ⟨s, t, hst⟩
        cases s with
        | nil =>
            exact Or.inl ⟨t, by simpa using hst⟩
        | cons s0 s' =>
            rcases List.cons.injEq .. ▸ hst with ⟨hb, hrest⟩
            exact Or.inr ⟨s', t, hrest⟩

lemma mapExcept_ok_mem {f : α → Except PyExc β} :
    ∀ {l : List α} {ys : List β}, mapExcept f l = .ok ys →
      ∀ y ∈ ys, ∃ x ∈ l, f x = .ok y := by
  intro l
  induction l with
  | nil =>
      intro ys h y hy
      simp only [mapExcept, Except.ok.injEq] at h
      subst h
      cases hy
  | cons x xs ih =>
      intro ys h y hy
      simp only [mapExcept] at h
      cases hx : f x with
      | error e => rw [hx] at h; cases h
      | ok y0 =>
          rw [hx] at h
          cases hxs : mapExcept f xs with
          | error e => rw [hxs] at h; cases h
          | ok ys0 =>
              rw [hxs] at h
              cases h
              rcases List.mem_cons.mp hy with rfl | hmem
              · exact ⟨x, List.mem_cons_self .., hx⟩
              · rcases ih hxs y hmem with ⟨x', hx', hfx'⟩
                exact ⟨x', List.mem_cons_of_mem _ hx', hfx'⟩

lemma mapExcept_ok_forall {f : α → Except PyExc β} :
    ∀ {l : List α} {ys : List β}, mapExcept f l = .ok ys →
      ∀ x ∈ l, ∃ y ∈ ys, f x = .ok y := by
  intro l
  induction l with
  | nil =>
      intro ys h x hx
      cases hx
  | cons x0 xs ih =>
      intro ys h x hx
      simp only [mapExcept] at h
      cases hx0 : f x0 with
      | error e => rw [hx0] at h; cases h
      | ok y0 =>
          rw [hx0] at h
          cases hxs : mapExcept f xs with
          | error e => rw [hxs] at h; cases h
          | ok ys0 =>
              rw [hxs] at h
              cases h
              rcases List.mem_cons.mp hx with rfl | hmem
              · exact ⟨y0, List.mem_cons_self .., hx0⟩
              · rcases ih hxs x hmem with ⟨y, hy, hfy⟩
                exact ⟨y, List.mem_cons_of_mem _ hy, hfy⟩

lemma foldl_authorStep_fst (ads : List AuthorData) :
    ∀ ns affs c, (ads.foldl authorStep (ns, affs, c)).1 =
      ns ++ (ads.filter qualifiesB).map AuthorData.full_name := by
  induction ads with
  | nil => intro ns affs c; simp
  | cons a rest ih =>
      intro ns affs c
      rw [List.foldl_cons]
      rw [show authorStep (ns, affs, c) a =
        (if qualifiesB a then
          (ns ++ [a.full_name], affs ++ [a.affiliation],
            if a.email != "" && c == "" then a.email else c)
        else (ns, affs, if a.email != "" && c == "" then a.email else c)) from rfl]
      cases hq : qualifiesB a with
      | true => simp [hq, ih, List.filter_cons]
      | false => simp [hq, ih, List.filter_cons]

lemma foldl_authorStep_snd (ads : List AuthorData) :
    ∀ ns affs c, (ads.foldl authorStep (ns, affs, c)).2.1 =
      affs ++ (ads.filter qualifiesB).map AuthorData.affiliation := by
  induction ads with
  | nil => intro ns affs c; simp
  | cons a rest ih =>
      intro ns affs c
      rw [List.foldl_cons]
      rw [show authorStep (ns, affs, c) a =
        (if qualifiesB a then
          (ns ++ [a.full_name], affs ++ [a.affiliation],
            if a.email != "" && c == "" then a.email else c)
        else (ns, affs, if a.email != "" && c == "" then a.email else c)) from rfl]
      cases hq : qualifiesB a with
      | true => simp [hq, ih, List.filter_cons]
      | false => simp [hq, ih, List.filter_cons]

lemma emailOfFirst_cons_pos {a : AuthorData} (rest : List AuthorData)
    (he : a.email ≠ "") : emailOfFirst (a :: rest) = a.email := by
  unfold emailOfFirst
  rw [List.find?_cons_of_pos _ (by simpa [bne_iff_ne] using he)]

lemma emailOfFirst_cons_neg {a : AuthorData} (rest : List AuthorData)
    (he : a.email = "") : emailOfFirst (a :: rest) = emailOfFirst rest := by
  unfold emailOfFirst
  rw [List.find?_cons_of_neg _ (by simp [bne_iff_ne, he])]

lemma foldl_authorStep_corr (ads : List AuthorData) :
    ∀ ns affs c, (ads.foldl authorStep (ns, affs, c)).2.2 =
      if c = "" then emailOfFirst ads else c := by
  induction ads with
  | nil =>
      intro ns affs c
      by_cases hc : c = "" <;> simp [hc, emailOfFirst]
  | cons a rest ih =>
      intro ns affs c
      rw [List.foldl_cons]
      rw [show authorStep (ns, affs, c) a =
        (if qualifiesB a then
          (ns ++ [a.full_name], affs ++ [a.affiliation],
            if a.email != "" && c == "" then a.email else c)
        else (ns, affs, if a.email != "" && c == "" then a.email else c)) from rfl]
      have hstep : ∀ ns' affs',
          (rest.foldl authorStep
            (ns', affs', if a.email != "" && c == "" then a.email else c)).2.2 =
            if c = "" then emailOfFirst (a :: rest) else c := by
        intro ns' affs'
        rw [ih]
        by_cases hc : c = ""
        · by_cases he : a.email = ""
          · simp [hc, he, emailOfFirst_cons_neg rest he]
          · simp [hc, he, bne_iff_ne, emailOfFirst_cons_pos rest he]
        · have hcb : (c == "") = false := beq_eq_false_iff_ne.mpr hc
          simp [hcb, hc]
      cases hq : qualifiesB a with
      | true => simpa using hstep (ns ++ [a.full_name]) (affs ++ [a.affiliation])
      | false => simpa using hstep ns affs

lemma extract_author_data_email {a : Elem} {ad : AuthorData}
    (h : extract_author_data a = .ok ad) :
    ad.email = if ad.affiliation != "" then extract_email ad.affiliation else "" := by
  unfold extract_author_data at h
  cases hfa : findAffiliation a with
  | none =>
      rw [hfa] at h
      dsimp only at h
      cases h
      simp
  | some affil_elem =>
      rw [hfa] at h
      dsimp only at h
      cases ht : affil_elem.text with
      | none => rw [ht] at h; cases h
      | some t =>
          rw [ht] at h
          dsimp only at h
          cases h
          rfl

lemma emailOfFirst_eq_spec : ∀ {ads : List AuthorData},
    (∀ ad ∈ ads, ad.email = if ad.affiliation != "" then extract_email ad.affiliation else "") →
    emailOfFirst ads = specFirstEmbeddedEmail ads := by
  intro ads
  induction ads with
  | nil => intro _; rfl
  | cons a rest ih =>
      intro hchar
      have ha := hchar a (List.mem_cons_self ..)
      have hrest := fun ad hm => hchar ad (List.mem_cons_of_mem _ hm)
      by_cases haff : a.affiliation = ""
      · have he : a.email = "" := by simp [ha, haff]
        rw [emailOfFirst_cons_neg rest he]
        unfold specFirstEmbeddedEmail
        rw [List.find?_cons_of_neg _ (by simp [haff])]
        rw [ih hrest]
        rfl
      · by_cases hee : extract_email a.affiliation = ""
        · have he : a.email = "" := by simp [ha, bne_iff_ne, haff, hee]
          rw [emailOfFirst_cons_neg rest he]
          unfold specFirstEmbeddedEmail
          rw [List.find?_cons_of_neg _ (by simp [bne_iff_ne, haff, hee])]
          rw [ih hrest]
          rfl
        · have he : a.email = extract_email a.affiliation := by
            simp [ha, bne_iff_ne, haff]
          have hene : a.email ≠ "" := by rw [he]; exact hee
          rw [emailOfFirst_cons_pos rest hene]
          unfold specFirstEmbeddedEmail
          rw [List.find?_cons_of_pos _ (by simp [bne_iff_ne, haff, hee])]
          exact he

lemma extract_article_data_ok_exists {article : Elem} {d : ArticleData}
    (h : extract_article_data article = .ok d) :
    ∃ ads, mapExcept extract_author_data (findallDesc article "Author") = .ok ads := by
  unfold extract_article_data at h
  cases hm : mapExcept extract_author_data (findallDesc article "Author") with
  | error e => rw [hm] at h; cases h
  | ok ads => exact ⟨ads, rfl⟩

lemma extract_article_data_ok_fields {article : Elem} {d : ArticleData} {ads : List AuthorData}
    (h : extract_article_data article = .ok d)
    (hads : mapExcept extract_author_data (findallDesc article "Author") = .ok ads) :
    d.pmid = pyOrStr (findtextDesc article "PMID") "N/A" ∧
    d.title = clean_title (findtextDesc article "ArticleTitle") ∧
    d.non_academic_authors = (ads.filter qualifiesB).map AuthorData.full_name ∧
    d.affiliations = (ads.filter qualifiesB).map AuthorData.affiliation ∧
    d.corresponding_email = emailOfFirst ads := by
  unfold extract_article_data at h
  rw [hads] at h
  cases h
  refine ⟨rfl, rfl, ?_, ?_, ?_⟩
  · simpa using foldl_authorStep_fst ads [] [] ""
  · simpa using foldl_authorStep_snd ads [] [] ""
  · simpa using foldl_authorStep_corr ads [] [] ""

lemma dropWhile_of_head_false {p : Char → Bool} : ∀ {cs : List Char},
    (∀ c, cs.head? = some c → p c = false) → cs.dropWhile p = cs := by
  intro cs h
  cases cs with
  | nil => rfl
  | cons a l =>
      rw [List.dropWhile_cons, h a rfl]
      simp

lemma pyStripP_eq_self {p : Char → Bool} {cs : List Char}
    (h1 : ∀ c, cs.head? = some c → p c = false)
    (h2 : ∀ c, cs.getLast? = some c → p c = false) :
    pyStripP p cs = cs := by
  unfold pyStripP
  rw [dropWhile_of_head_false h1]
  rw [dropWhile_of_head_false (fun c hc => h2 c (by rwa [List.head?_reverse] at hc))]
  exact List.reverse_reverse cs

lemma mk_toList (s : String) : String.mk s.toList = s := by
  cases s
  rfl

lemma toList_ne_nil {s : String} (h : s ≠ "") : s.toList ≠ [] := by
  intro hn
  exact h (String.ext hn)

lemma pyStripChars_eq_self {set : List Char} {s : String}
    (h1 : ∀ c, s.toList.head? = some c → set.contains c = false)
    (h2 : ∀ c, s.toList.getLast? = some c → set.contains c = false) :
    pyStripChars set s = s := by
  unfold pyStripChars
  rw [pyStripP_eq_self h1 h2, mk_toList]

/-! ### Claim theorems -/

/-- Claim C1: an affiliation is classified academic iff its lower-cased text
contains some keyword of `ACADEMIC_KEYWORDS` as a contiguous substring;
every string containing no keyword is classified non-academic. -/
theorem pharma_c1 (affil : String) :
    is_academic_affiliation affil = true ↔
      ∃ kw ∈ ACADEMIC_KEYWORDS, ∃ s t : List Char,
        s ++ kw.toList ++ t = (pyLower affil).toList := by
  unfold is_academic_affiliation pyContains
  rw [List.any_eq_true]
  constructor
  · rintro ⟨kw, hkw, hc⟩
    exact ⟨kw, hkw, (containsList_iff _ _).mp hc⟩
  · rintro ⟨kw, hkw, hex⟩
    exact ⟨kw, hkw, (containsList_iff _ _).mpr hex⟩

/-- Claim C5: `extract_email` splits on whitespace and returns the first
token containing both `@` and `.` stripped of surrounding `;.,()<>`, with
`""` for empty input and when no token qualifies; including the three
documented examples. -/
theorem pharma_c5 :
    (∀ s : String, extract_email s = specExtractEmail s) ∧
    extract_email "Pfizer Inc., contact: john.doe@pfizer.com" = "john.doe@pfizer.com" ∧
    extract_email "" = "" ∧
    extract_email "No email here" = "" := by
  refine ⟨?_, rfl, rfl, rfl⟩
  intro s
  by_cases h : s = ""
  · subst h; rfl
  · unfold extract_email specExtractEmail
    rw [if_neg h]

/-- Claim C6 (code bug): on an author whose `Affiliation` element is present
but has no text content, per-author extraction raises `AttributeError`
instead of degrading to an empty string, aborting the whole article and the
whole batch (generic CLI exit code 1). -/
theorem pharma_c6 :
    extract_author_data emptyAffiliationAuthor = .error PyExc.attributeError ∧
    extract_article_data articleWithEmptyAffiliation = .error PyExc.attributeError ∧
    parse_xml_response rootWithEmptyAffiliation = .error PyExc.attributeError ∧
    cliExitCode (fetch_details (XMLDoc.wellFormed rootWithEmptyAffiliation)) = 1 :=
  ⟨rfl, rfl, rfl, rfl⟩

/-- Claim C7 counterexample: on structurally malformed XML the fetch path
raises `PubMedAPIError` (CLI exit code 4), not a DataProcessing error
(exit code 5) as claimed. -/
theorem pharma_c7_counterexample :
    fetch_details (XMLDoc.malformed "no element found: line 1, column 0") =
      .error (PyExc.pubMedAPIError
        "Failed to parse XML response: no element found: line 1, column 0") ∧
    cliExitCode (fetch_details (XMLDoc.malformed "no element found: line 1, column 0")) = 4 ∧
    cliExitCode (fetch_details (XMLDoc.malformed "no element found: line 1, column 0")) ≠ 5 :=
  ⟨rfl, rfl, by decide⟩

/-- Claim C7 as amended: malformed XML makes the fetch parse fail with
`PubMedAPIError` (exit code 4 at the CLI, converted from `ET.ParseError`
without any retry), while a well-formed document with no article nodes
yields the empty sequence, not an error. -/
theorem pharma_c7 :
    (∀ msg, fetch_details (XMLDoc.malformed msg) =
        .error (PyExc.pubMedAPIError ("Failed to parse XML response: " ++ msg)) ∧
      cliExitCode (fetch_details (XMLDoc.malformed msg)) = 4) ∧
    (∀ root : Elem, findallDesc root "PubmedArticle" = [] →
      fetch_details (XMLDoc.wellFormed root) = .ok []) := by
  constructor
  · intro msg
    exact ⟨rfl, rfl⟩
  · intro root h
    have hp : parse_xml_response root = .ok [] := by
      unfold parse_xml_response
      rw [h]
      rfl
    unfold fetch_details parse_xml_response_text ET_fromstring
    dsimp only
    rw [hp]

/-- Witness for the amended C7 at concrete inputs. -/
theorem pharma_c7_witness :
    fetch_details (XMLDoc.wellFormed emptyRootElem) = .ok [] ∧
    cliExitCode (fetch_details (XMLDoc.malformed "junk")) = 4 :=
  ⟨pharma_c7.2 emptyRootElem rfl, (pharma_c7.1 "junk").2⟩

/-- Claim C8 counterexample: with an absent year but a present month the
output is the bare month (`"05"`), which is neither empty nor of any of the
claimed year-led formats. -/
theorem pharma_c8_counterexample :
    format_publication_date "" "05" "" = "05" ∧
    ¬ specDateFormat "" "05" "" (format_publication_date "" "05" "") := by
  constructor
  · rfl
  · rw [show format_publication_date "" "05" "" = "05" from rfl]
    unfold specDateFormat
    decide

/-- Claim C8 as amended: the output is the present components joined with
`-` (then stripped of dashes at the ends); the claimed `YYYY`/`YYYY-MM`/
`YYYY-MM-DD`/empty format guarantee holds whenever the month is only
present together with the year, the day only together with the month, and
no component itself contains a dash. -/
theorem pharma_c8 (year month day : String)
    (hm : month ≠ "" → year ≠ "") (hd : day ≠ "" → month ≠ "")
    (hy : ∀ c ∈ year.toList, c ≠ '-')
    (hmo : ∀ c ∈ month.toList, c ≠ '-')
    (hda : ∀ c ∈ day.toList, c ≠ '-') :
    specDateFormat year month day (format_publication_date year month day) := by
  by_cases hy0 : year = ""
  · by_cases hm0 : month = ""
    · by_cases hd0 : day = ""
      · subst hy0; subst hm0; subst hd0
        exact Or.inl ⟨rfl, rfl, rfl, rfl⟩
      · exact absurd hm0 (hd hd0)
    · exact absurd hy0 (hm hm0)
  · have hylist := toList_ne_nil hy0
    by_cases hm0 : month = ""
    · by_cases hd0 : day = ""
      · refine Or.inr (Or.inl ⟨hy0, ?_⟩)
        subst hm0; subst hd0
        have hfil : ([year, "", ""].filter (fun part => part != "")) = [year] := by
          simp [List.filter_cons, bne_iff_ne, hy0]
        unfold format_publication_date
        rw [hfil]
        rw [show pyJoin "-" [year] = year from rfl]
        apply pyStripChars_eq_self
        · intro c hc
          simp [hy c (List.mem_of_mem_head? hc)]
        · intro c hc
          simp [hy c (List.mem_of_mem_getLast? hc)]
      · exact absurd hm0 (hd hd0)
    · have hmlist := toList_ne_nil hm0
      by_cases hd0 : day = ""
      · refine Or.inr (Or.inr (Or.inl ⟨hy0, hm0, ?_⟩))
        subst hd0
        have hfil : ([year, month, ""].filter (fun part => part != "")) = [year, month] := by
          simp [List.filter_cons, bne_iff_ne, hy0, hm0]
        unfold format_publication_date
        rw [hfil]
        rw [show pyJoin "-" [year, month] = year ++ "-" ++ month from rfl]
        apply pyStripChars_eq_self
        · intro c hc
          have hc' : ((year.toList ++ ['-']) ++ month.toList).head? = some c := hc
          rw [List.head?_append_of_ne_nil _ (by simp), List.head?_append_of_ne_nil _ hylist] at hc'
          simp [hy c (List.mem_of_mem_head? hc')]
        · intro c hc
          have hc' : ((year.toList ++ ['-']) ++ month.toList).getLast? = some c := hc
          rw [List.getLast?_append_of_ne_nil _ hmlist] at hc'
          simp [hmo c (List.mem_of_mem_getLast? hc')]
      · have hdlist := toList_ne_nil hd0
        refine Or.inr (Or.inr (Or.inr ⟨hy0, hm0, hd0, ?_⟩))
        have hfil : ([year, month, day].filter (fun part => part != "")) = [year, month, day] := by
          simp [List.filter_cons, bne_iff_ne, hy0, hm0, hd0]
        unfold format_publication_date
        rw [hfil]
        rw [show pyJoin "-" [year, month, day] = (year ++ "-") ++ ((month ++ "-") ++ day) from rfl]
        have hstrip : pyStripChars ['-'] ((year ++ "-") ++ ((month ++ "-") ++ day)) =
            (year ++ "-") ++ ((month ++ "-") ++ day) := by
          apply pyStripChars_eq_self
          · intro c hc
            have hc' : ((year.toList ++ ['-']) ++ ((month.toList ++ ['-']) ++ day.toList)).head? =
                some c := hc
            rw [List.head?_append_of_ne_nil _ (by simp),
              List.head?_append_of_ne_nil _ hylist] at hc'
            simp [hy c (List.mem_of_mem_head? hc')]
          · intro c hc
            have hc' : ((year.toList ++ ['-']) ++ ((month.toList ++ ['-']) ++ day.toList)).getLast? =
                some c := hc
            rw [List.getLast?_append_of_ne_nil _ (by simp [hdlist]),
              List.getLast?_append_of_ne_nil _ hdlist] at hc'
            simp [hda c (List.mem_of_mem_getLast? hc')]
        rw [hstrip]
        simp [String.append_assoc]

/-- Witness for the amended C8 at a concrete full date. -/
theorem pharma_c8_witness :
    specDateFormat "2020" "05" "17" (format_publication_date "2020" "05" "17") :=
  pharma_c8 "2020" "05" "17" (fun _ => by decide) (fun _ => by decide)
    (by decide) (by decide) (by decide)

/-- Claim C2: an article record appears in the batch-parser output iff its
`non_academic_authors` sequence is non-empty; and every entry of that
sequence comes from an author whose (first) affiliation is non-empty and
non-academic, so authors with empty affiliation contribute nothing (the
output tracks no academic side at all). -/
theorem pharma_c2 (root : Elem) (rows : List Row)
    (h : parse_xml_response root = .ok rows) :
    (∀ row, row ∈ rows ↔ ∃ article ∈ findallDesc root "PubmedArticle", ∃ d,
        extract_article_data article = .ok d ∧ d.non_academic_authors ≠ [] ∧ row = toRow d) ∧
    (∀ article ∈ findallDesc root "PubmedArticle", ∀ d, extract_article_data article = .ok d →
      ∀ ads, mapExcept extract_author_data (findallDesc article "Author") = .ok ads →
        d.non_academic_authors = (ads.filter (fun ad =>
          ad.affiliation != "" && !is_academic_affiliation ad.affiliation)).map
            AuthorData.full_name) := by
  unfold parse_xml_response at h
  cases hm : mapExcept extract_article_data (findallDesc root "PubmedArticle") with
  | error e => rw [hm] at h; cases h
  | ok datas =>
      rw [hm] at h
      cases h
      constructor
      · intro row
        constructor
        · intro hrow
          obtain ⟨d, hd, hrow_eq⟩ := List.mem_map.mp hrow
          have hd_mem : d ∈ datas := List.mem_of_mem_filter hd
          have hne : d.non_academic_authors ≠ [] := by
            have := List.of_mem_filter hd
            simpa using this
          obtain ⟨article, hart, hok⟩ := mapExcept_ok_mem hm d hd_mem
          exact ⟨article, hart, d, hok, hne, hrow_eq.symm⟩
        · rintro ⟨article, hart, d, hok, hne, rfl⟩
          apply List.mem_map_of_mem
          apply List.mem_filter.mpr
          refine ⟨?_, by simpa using hne⟩
          obtain ⟨d', hd', hok'⟩ := mapExcept_ok_forall hm article hart
          have hdd : d' = d := Except.ok.inj (hok'.symm.trans hok)
          exact hdd ▸ hd'
      · intro article hart d hok ads hads
        obtain ⟨_, _, hnames, _, _⟩ := extract_article_data_ok_fields hok hads
        exact hnames

/-- Witness for C2 at a concrete two-article document: the all-academic
article is dropped, the mixed article is kept. -/
theorem pharma_c2_witness :
    (∀ row, row ∈ [rowMixed] ↔ ∃ article ∈ findallDesc rootMixed "PubmedArticle", ∃ d,
        extract_article_data article = .ok d ∧ d.non_academic_authors ≠ [] ∧ row = toRow d) ∧
    (∀ article ∈ findallDesc rootMixed "PubmedArticle", ∀ d, extract_article_data article = .ok d →
      ∀ ads, mapExcept extract_author_data (findallDesc article "Author") = .ok ads →
        d.non_academic_authors = (ads.filter (fun ad =>
          ad.affiliation != "" && !is_academic_affiliation ad.affiliation)).map
            AuthorData.full_name) :=
  pharma_c2 rootMixed [rowMixed] rfl

/-- Claim C3: `corresponding_email` equals the email mined from the first
author in document order whose (non-empty) affiliation text yields an email,
with no reference to the academic classification; empty when no author
yields one. -/
theorem pharma_c3 (article : Elem) (d : ArticleData) (ads : List AuthorData)
    (h : extract_article_data article = .ok d)
    (hads : mapExcept extract_author_data (findallDesc article "Author") = .ok ads) :
    d.corresponding_email = specFirstEmbeddedEmail ads := by
  obtain ⟨_, _, _, _, hcorr⟩ := extract_article_data_ok_fields h hads
  rw [hcorr]
  apply emailOfFirst_eq_spec
  intro ad hmem
  obtain ⟨author, _, hok⟩ := mapExcept_ok_mem hads ad hmem
  exact extract_author_data_email hok

/-- Witness for C3 at a concrete article whose first (academic) author
carries the email: the quirk is visible, the email of the academic author wins. -/
theorem pharma_c3_witness :
    dMixed.corresponding_email = specFirstEmbeddedEmail adsMixed :=
  pharma_c3 artMixed dMixed adsMixed rfl rfl

/-- Claim C4: `non_academic_authors` and `company_affiliations` have equal
length and are index-aligned: entry `i` of both comes from one and the same
author record (whose affiliation is the text of its first affiliation
node). -/
theorem pharma_c4 (article : Elem) (d : ArticleData)
    (h : extract_article_data article = .ok d) :
    d.non_academic_authors.length = d.affiliations.length ∧
    ∀ i (h1 : i < d.non_academic_authors.length) (h2 : i < d.affiliations.length),
      ∃ author ad, author ∈ findallDesc article "Author" ∧
        extract_author_data author = .ok ad ∧
        d.non_academic_authors.get ⟨i, h1⟩ = ad.full_name ∧
        d.affiliations.get ⟨i, h2⟩ = ad.affiliation := by
  obtain ⟨ads, hads⟩ := extract_article_data_ok_exists h
  obtain ⟨_, _, hnames, haffs, _⟩ := extract_article_data_ok_fields h hads
  rw [hnames, haffs]
  constructor
  · simp
  · intro i h1 h2
    have hq : i < (ads.filter qualifiesB).length := by simpa using h1
    have hmem : (ads.filter qualifiesB).get ⟨i, hq⟩ ∈ ads.filter qualifiesB :=
      List.get_mem ..
    obtain ⟨author, hauth, hok⟩ :=
      mapExcept_ok_mem hads _ (List.mem_of_mem_filter hmem)
    refine ⟨author, (ads.filter qualifiesB).get ⟨i, hq⟩, hauth, hok, ?_, ?_⟩
    · simp [List.get_eq_getElem, List.getElem_map]
    · simp [List.get_eq_getElem, List.getElem_map]

/-- Witness for C4 at a concrete article. -/
theorem pharma_c4_witness :
    dMixed.non_academic_authors.length = dMixed.affiliations.length ∧
    ∀ i (h1 : i < dMixed.non_academic_authors.length)
        (h2 : i < dMixed.affiliations.length),
      ∃ author ad, author ∈ findallDesc artMixed "Author" ∧
        extract_author_data author = .ok ad ∧
        dMixed.non_academic_authors.get ⟨i, h1⟩ = ad.full_name ∧
        dMixed.affiliations.get ⟨i, h2⟩ = ad.affiliation :=
  pharma_c4 artMixed dMixed rfl

/-- Claim C9 counterexample: on an article whose `PMID` node is present but
has empty text content, the code yields the sentinel `"N/A"`, not the
the (empty) text of the node as the claim states. -/
theorem pharma_c9_counterexample :
    (extract_article_data emptyPmidArticle).map ArticleData.pmid = .ok "N/A" ∧
    specPmid emptyPmidArticle = "" ∧
    ("N/A" : String) ≠ specPmid emptyPmidArticle :=
  ⟨rfl, rfl, by decide⟩

/-- Claim C9 as amended: the extracted `pmid` is the text of the first
matching `PMID` node when that text is non-empty, and `"N/A"` when the node
is absent or its text is empty; the extracted title is the trimmed text of
the first matching title node, with `"N/A"` when the node is absent or its
raw text is empty. -/
theorem pharma_c9 (article : Elem) (d : ArticleData)
    (h : extract_article_data article = .ok d) :
    d.pmid = specPmidAmended article ∧ d.title = specTitle article := by
  obtain ⟨ads, hads⟩ := extract_article_data_ok_exists h
  obtain ⟨hpmid, htitle, _, _, _⟩ := extract_article_data_ok_fields h hads
  constructor
  · rw [hpmid]
    cases hf : findDesc article "PMID" with
    | none => simp [pyOrStr, findtextDesc, specPmidAmended, hf]
    | some el => simp [pyOrStr, findtextDesc, specPmidAmended, hf]
  · rw [htitle]
    cases hf : findDesc article "ArticleTitle" with
    | none => simp [clean_title, findtextDesc, specTitle, hf]
    | some el => simp [clean_title, findtextDesc, specTitle, hf]

/-- Witness for the amended C9 at a concrete article. -/
theorem pharma_c9_witness :
    dMixed.pmid = specPmidAmended artMixed ∧ dMixed.title = specTitle artMixed :=
  pharma_c9 artMixed dMixed rfl

/-- Claim C10 counterexample: an email field holding the sentinel `"N/A"`
fails the validation regex yet is returned unchanged, not replaced by the
empty string. -/
theorem pharma_c10_counterexample :
    validate_article_data dictNAEmail = .ok rowNAEmail ∧
    rowNAEmail.correspondingAuthorEmail = "N/A" ∧
    emailRegexMatch "N/A" = false ∧
    rowNAEmail.correspondingAuthorEmail ≠ "" :=
  ⟨rfl, rfl, rfl, by decide⟩

/-- Claim C10 as amended: `validate_article_data` raises `ValidationError`
iff the stripped PubMed ID is neither `"N/A"` nor all digits; a failing
email never raises, and on success the returned email is kept exactly when
it is empty, the sentinel `"N/A"`, or regex-valid, and is otherwise
replaced by the empty string. -/
theorem pharma_c10 (a : ArticleDict) :
    ((∃ e, validate_article_data a = .error e) ↔
      (pyStripWs (a.pubmedID.getD "N/A") ≠ "N/A" ∧
        pyIsDigit (pyStripWs (a.pubmedID.getD "N/A")) = false)) ∧
    (∀ r, validate_article_data a = .ok r →
      r.correspondingAuthorEmail =
        if pyStripWs (a.correspondingEmail.getD "") = "" ∨
            pyStripWs (a.correspondingEmail.getD "") = "N/A" ∨
            emailRegexMatch (pyStripWs (a.correspondingEmail.getD "")) = true
        then pyStripWs (a.correspondingEmail.getD "") else "") := by
  by_cases hcond : (pyStripWs (a.pubmedID.getD "N/A") != "N/A" &&
      !pyIsDigit (pyStripWs (a.pubmedID.getD "N/A"))) = true
  · have hval : validate_article_data a =
        .error (PyExc.validationError
          ("Invalid PubMed ID format: " ++ pyStripWs (a.pubmedID.getD "N/A"))) := by
      unfold validate_article_data
      rw [if_pos hcond]
    constructor
    · constructor
      · intro _
        rcases Bool.and_eq_true .. ▸ hcond with ⟨h1, h2⟩
        exact ⟨bne_iff_ne.mp h1, by simpa using h2⟩
      · intro _
        exact ⟨_, hval⟩
    · intro r hr
      rw [hval] at hr
      cases hr
  · have hval : validate_article_data a =
        .ok { pubmedID := pyStripWs (a.pubmedID.getD "N/A"),
              titleField := pyStripWs (a.titleField.getD "N/A"),
              publicationDate := pyStripWs (a.publicationDate.getD ""),
              nonAcademicAuthors := pyStripWs (a.nonAcademicAuthors.getD ""),
              companyAffiliations := pyStripWs (a.companyAffiliations.getD ""),
              correspondingAuthorEmail :=
                if pyStripWs (a.correspondingEmail.getD "") != "" &&
                    pyStripWs (a.correspondingEmail.getD "") != "N/A" &&
                    !emailRegexMatch (pyStripWs (a.correspondingEmail.getD ""))
                then "" else pyStripWs (a.correspondingEmail.getD "") } := by
      unfold validate_article_data
      rw [if_neg (by simpa using hcond)]
    constructor
    · constructor
      · intro ⟨e, he⟩
        rw [hval] at he
        cases he
      · intro ⟨h1, h2⟩
        exact absurd (by simp [bne_iff_ne, h1, h2]) hcond
    · intro r hr
      rw [hval] at hr
      cases hr
      by_cases he1 : pyStripWs (a.correspondingEmail.getD "") = ""
      · simp [he1]
      · by_cases he2 : pyStripWs (a.correspondingEmail.getD "") = "N/A"
        · simp [he1, he2, bne_iff_ne]
        · by_cases he3 : emailRegexMatch (pyStripWs (a.correspondingEmail.getD "")) = true
          · simp [he1, he2, he3, bne_iff_ne]
          · simp [he1, he2, he3, bne_iff_ne]

/-- Witness for the amended C10 at a concrete dictionary with a
regex-failing email. -/
theorem pharma_c10_witness :
    rowBadEmail.correspondingAuthorEmail =
      if pyStripWs (dictBadEmail.correspondingEmail.getD "") = "" ∨
          pyStripWs (dictBadEmail.correspondingEmail.getD "") = "N/A" ∨
          emailRegexMatch (pyStripWs (dictBadEmail.correspondingEmail.getD "")) = true
      then pyStripWs (dictBadEmail.correspondingEmail.getD "") else "" :=
  (pharma_c10 dictBadEmail).2 rowBadEmail rfl

end PharmaExtractor
